import Mathlib

set_option autoImplicit false

/-!
Verification of the dependency-set reconciliation and rendering engine of a
crate comparison tool (src/main.rs). The `Deps` subcommand builds, for each of
two versions of a crate, a map from dependency name to dependency record and a
sorted set of dependency names; it classifies each name in the union of the two
name sets as added, removed, or common; added and removed records are printed
with a `+` or `-` mark on every line of their pretty-debug rendering, and
common records are compared through an external unified-diff utility whose
output is printed with its first three lines skipped whenever the utility
exits with a non-zero status. External collaborators (the registry index, the
diff utility) are modelled from the specification at their interface.
-/

namespace CrateDiff

/-- Dependency kinds as used by the registry index. -/
inductive DependencyKind where
  | normal
  | dev
  | build
deriving DecidableEq

/-- One dependency record of a package version, as returned by the registry
index: the reconciliation key `name` plus the comparison-relevant fields
(required version range, feature set, optionality, target, kind, package). -/
structure Dependency where
  name : String
  req : String
  features : List String
  optional : Bool
  default_features : Bool
  target : Option String
  kind : Option DependencyKind
  package : Option String
deriving DecidableEq

/-- Names of the dependencies of one version, collected into a set
(src/main.rs lines 123-132: the `BTreeSet` of `d.name()`). -/
def depNames (deps : List Dependency) : Finset String :=
  (deps.map Dependency.name).toFinset

/-- Names present only in the second version (src/main.rs line 133:
`v2_deps.difference(&v1_deps)`). -/
def addedSet (deps1 deps2 : List Dependency) : Finset String :=
  depNames deps2 \ depNames deps1

/-- Names present only in the first version (src/main.rs line 134:
`v1_deps.difference(&v2_deps)`). -/
def removedSet (deps1 deps2 : List Dependency) : Finset String :=
  depNames deps1 \ depNames deps2

/-- Names handled by the final else branch of the reconciliation loop
(src/main.rs line 154): in the union of both name sets but neither added nor
removed. -/
def commonSet (deps1 deps2 : List Dependency) : Finset String :=
  (depNames deps1 ∪ depNames deps2) \ (addedSet deps1 deps2 ∪ removedSet deps1 deps2)

/-- Wrap a string in double quotes, the way the Rust debug format renders a
string field. -/
def quoteStr (s : String) : String := "\"" ++ s ++ "\""

/-- Debug rendering of a dependency kind. -/
def renderKind : DependencyKind → String
  | .normal => "Normal"
  | .dev => "Dev"
  | .build => "Build"

/-- Debug rendering of an optional field. -/
def renderOpt {α : Type} (f : α → String) : Option α → String
  | none => "None"
  | some a => "Some(" ++ f a ++ ")"

/-- Debug rendering of the feature list: a single line when empty, one line
per feature otherwise, as the Rust pretty-debug format lays out a vector. -/
def renderFeatures (fs : List String) : List String :=
  if fs.isEmpty then ["features: [],"]
  else "features: [" :: fs.map (fun f => "    " ++ quoteStr f ++ ",") ++ ["],"]

/-- Field lines of the rendering of one dependency record, before the
four-space struct indentation is applied. -/
def depInnerLines (d : Dependency) : List String :=
  ["name: " ++ quoteStr d.name ++ ",",
   "req: " ++ quoteStr d.req ++ ","]
  ++ renderFeatures d.features
  ++ ["optional: " ++ toString d.optional ++ ",",
      "default_features: " ++ toString d.default_features ++ ",",
      "target: " ++ renderOpt quoteStr d.target ++ ",",
      "kind: " ++ renderOpt renderKind d.kind ++ ",",
      "package: " ++ renderOpt quoteStr d.package ++ ","]

/-- Modelled from the spec: the canonical multi-line textual rendering of a
dependency record — the pretty-debug format of the external index crate,
fields laid out in a fixed stable order — given as its list of lines. The
record struct itself lives in the external index crate, so its rendering is
modelled here rather than translated. -/
def renderDepLines (d : Dependency) : List String :=
  "Dependency \x7b" :: (depInnerLines d).map (fun l => "    " ++ l) ++ ["\x7d"]

/-- Head character of a line. -/
def lineHead (s : String) : Option Char := s.data.head?

/-- Recognises the three kinds of unified-diff header lines: the two file
headers and the range header. -/
def isHeaderLine (s : String) : Bool :=
  decide (s.data.take 3 = ['-', '-', '-']) || decide (s.data.take 3 = ['+', '+', '+'])
    || decide (s.data.take 2 = ['@', '@'])

/-- Association list modelling the map from dependency name to record. -/
abbrev DepMap := List (String × Dependency)

/-- Insertion with replacement: the behaviour of inserting one key into an
ordered map, keeping the key set free of duplicates. -/
def insertDM (m : DepMap) (k : String) (v : Dependency) : DepMap :=
  match m with
  | [] => [(k, v)]
  | (k', v') :: rest => if k' = k then (k, v) :: rest else (k', v') :: insertDM rest k v

/-- Lookup by key. -/
def lookupDM (m : DepMap) (k : String) : Option Dependency :=
  (m.find? (fun p => p.1 == k)).map Prod.snd

/-- Building the name-to-record map (src/main.rs lines 113-122): the pairs
produced by the dependency iterator are inserted in order, a later pair
overwriting an earlier one with the same key, as collecting into a BTreeMap
does. -/
def collectMap (deps : List Dependency) : DepMap :=
  deps.foldl (fun m d => insertDM m d.name d) []

/-- Keys of the map, in order. -/
def keysDM (m : DepMap) : List String := m.map Prod.fst

/-- Captured result of running an external process: its exit code and its
captured standard output, given as a list of lines. -/
structure ProcResult where
  exitCode : Nat
  stdout : List String
deriving DecidableEq

/-- Modelled from the spec: the body of a unified diff between two renderings
at unlimited context, abstracted as the removal of every line of the first
rendering followed by the addition of every line of the second. -/
def diffBody (a b : List String) : List String :=
  a.map (fun l => "-" ++ l) ++ b.map (fun l => "+" ++ l)

/-- Modelled from the spec: the external line-oriented unified-diff utility.
On identical inputs it exits with status 0 and writes nothing; on differing
inputs it exits with the distinct differences-found status 1 and writes
conventional unified-diff output: two file-header lines, one range-header
line, then the diff body. -/
def diffUtility (a b : List String) : ProcResult :=
  if a = b then ⟨0, []⟩
  else ⟨1, ["--- before", "+++ after", "@@ -1 +1 @@"] ++ diffBody a b⟩

/-- Handling of the captured diff result in the common branch (src/main.rs
lines 177-186): on a non-zero exit status the captured output is printed with
its first three lines skipped; on a zero status nothing is printed. -/
def commonHandle (res : ProcResult) : List String :=
  if res.exitCode = 0 then [] else res.stdout.drop 3

/-- One iteration of the reconciliation loop (src/main.rs lines 137-188) for
one dependency name: the lines printed for that name, or none when a map
lookup followed by unwrap would panic. -/
def blockFor (deps1 deps2 : List Dependency) (dep : String) : Option (List String) :=
  if dep ∈ addedSet deps1 deps2 then
    (lookupDM (collectMap deps2) dep).map (fun d => (renderDepLines d).map (fun l => "+" ++ l))
  else if dep ∈ removedSet deps1 deps2 then
    (lookupDM (collectMap deps1) dep).map (fun d => (renderDepLines d).map (fun l => "-" ++ l))
  else
    match lookupDM (collectMap deps1) dep, lookupDM (collectMap deps2) dep with
    | some d1, some d2 =>
        some (commonHandle (diffUtility (renderDepLines d1) (renderDepLines d2)))
    | _, _ => none

/-- Iteration order of the reconciliation loop (src/main.rs line 137): the
union of the two sorted name sets, in ascending order, as the union iterator
of two BTreeSets yields it. -/
def unionSorted (deps1 deps2 : List Dependency) : List String :=
  (depNames deps1 ∪ depNames deps2).sort (· ≤ ·)

/-- The per-name blocks of the deps output, in emission order. -/
def depsBlocks (deps1 deps2 : List Dependency) : List (String × Option (List String)) :=
  (unionSorted deps1 deps2).map (fun n => (n, blockFor deps1 deps2 n))

/-- Runs the loop body over a list of names, propagating a panic as none. -/
def chunksFor (deps1 deps2 : List Dependency) : List String → Option (List (List String))
  | [] => some []
  | n :: ns =>
    match blockFor deps1 deps2 n, chunksFor deps1 deps2 ns with
    | some b, some bs => some (b :: bs)
    | _, _ => none

/-- All printed lines of the deps reconciliation loop, in order; none models
a panic of an unwrap. -/
def depsOutputLines (deps1 deps2 : List Dependency) : Option (List String) :=
  (chunksFor deps1 deps2 (unionSorted deps1 deps2)).map List.flatten

/-- The deps common branch around the diff invocation (src/main.rs lines
165-186): a failure to run the utility is propagated by the question-mark
operator; a captured result is handled by printing on any non-zero exit
status, and the exit status itself never produces an error. -/
def commonDiffStep (spawn : Except String ProcResult) : Except String (List String) :=
  match spawn with
  | .error e => .error e
  | .ok res => .ok (commonHandle res)

/-- The tree-diff branch around the diff invocation (src/main.rs lines
69-84): the captured standard output is printed with no exit-status check at
all. -/
def treeDiffStep (spawn : Except String ProcResult) : Except String (List String) :=
  match spawn with
  | .error e => .error e
  | .ok res => .ok res.stdout

/-- Modelled from the spec: one version entry of the registry index, carrying
the version string, the yanked flag and the dependency records. -/
structure VersionRecord where
  version : String
  yanked : Bool
  dependencies : List Dependency
deriving DecidableEq

/-- Modelled from the spec: one crate entry of the registry index. -/
structure CrateRecord where
  versions : List VersionRecord
deriving DecidableEq

/-- Modelled from the spec: the registry index, mapping crate names to crate
entries; looking up an absent name yields none. -/
abbrev IndexModel := List (String × CrateRecord)

/-- Crate lookup in the index (src/main.rs lines 56-59 and 89-92). -/
def lookupCrate (idx : IndexModel) (name : String) : Option CrateRecord :=
  (idx.find? (fun p => p.1 == name)).map Prod.snd

/-- Version lookup within a crate entry (src/main.rs lines 93-112: find the
version whose version string equals the requested one). -/
def findVersion (k : CrateRecord) (v : String) : Option VersionRecord :=
  k.versions.find? (fun r => r.version == v)

/-- The versions subcommand (src/main.rs lines 55-63): look up the crate in
the index, failing with a message naming the crate when it is absent, then
print each non-yanked version. -/
def versionsCmd (idx : IndexModel) (name : String) : Except String (List String) :=
  match lookupCrate idx name with
  | none => .error ("Couldn\x27t find crate name " ++ name)
  | some k => .ok ((k.versions.filter (fun v => !v.yanked)).map VersionRecord.version)

/-- The deps subcommand (src/main.rs lines 88-190): look up the crate, then
each of the two requested versions, failing with a message naming the missing
identifier before any output is produced; then run the reconciliation loop. -/
def depsCmd (idx : IndexModel) (name v1 v2 : String) : Except String (Option (List String)) :=
  match lookupCrate idx name with
  | none => .error ("Couldn\x27t find crate name " ++ name)
  | some k =>
    match findVersion k v1 with
    | none => .error ("Couldn\x27t find version " ++ v1 ++ " for crate " ++ name)
    | some r1 =>
      match findVersion k v2 with
      | none => .error ("Couldn\x27t find version " ++ v2 ++ " for crate " ++ name)
      | some r2 => .ok (depsOutputLines r1.dependencies r2.dependencies)

/-- Concrete record used by witnesses: dependency a at caret one dot zero. -/
def depA : Dependency := ⟨"a", "^1.0", [], false, true, none, some .normal, none⟩

/-- Concrete record used by witnesses: dependency b at caret two dot zero. -/
def depB : Dependency := ⟨"b", "^2.0", [], false, true, none, some .normal, none⟩

/-- Concrete record used by witnesses: dependency b at caret two dot one. -/
def depB1 : Dependency := ⟨"b", "^2.1", [], false, true, none, some .normal, none⟩

/-- Concrete record used by witnesses: dependency c at caret one dot zero. -/
def depC : Dependency := ⟨"c", "^1.0", [], false, true, none, some .normal, none⟩

/-- Concrete one-crate index used by witnesses. -/
def idx0 : IndexModel := [("serde", ⟨[⟨"1.0.0", false, [depA]⟩]⟩)]

/-- C1: for every two dependency lists, the reconciliation partitions the
names: added, removed and common are pairwise disjoint and their union equals
names(A) ∪ names(B). -/
theorem deps_partition (deps1 deps2 : List Dependency) :
    (addedSet deps1 deps2 ∪ removedSet deps1 deps2 ∪ commonSet deps1 deps2
      = depNames deps1 ∪ depNames deps2)
    ∧ Disjoint (addedSet deps1 deps2) (removedSet deps1 deps2)
    ∧ Disjoint (addedSet deps1 deps2) (commonSet deps1 deps2)
    ∧ Disjoint (removedSet deps1 deps2) (commonSet deps1 deps2) := by
  refine ⟨?_, ?_, ?_, ?_⟩
  · ext x
    simp only [addedSet, removedSet, commonSet, Finset.mem_union, Finset.mem_sdiff]
    tauto
  all_goals
    rw [Finset.disjoint_left]
    intro x hx hx'
    simp only [addedSet, removedSet, commonSet, Finset.mem_union, Finset.mem_sdiff] at hx hx'
    tauto

/-- C2: swapping the two dependency lists swaps added and removed and
preserves common. -/
theorem deps_swap (deps1 deps2 : List Dependency) :
    addedSet deps1 deps2 = removedSet deps2 deps1
    ∧ commonSet deps1 deps2 = commonSet deps2 deps1 := by
  constructor
  · rfl
  · ext x
    simp only [commonSet, addedSet, removedSet, Finset.mem_union, Finset.mem_sdiff]
    tauto

theorem lookupDM_nil (n : String) : lookupDM [] n = none := rfl

theorem lookupDM_cons (a : String) (b : Dependency) (m : DepMap) (n : String) :
    lookupDM ((a, b) :: m) n = if a = n then some b else lookupDM m n := by
  by_cases h : a = n <;> simp [lookupDM, List.find?_cons, h]

theorem lookupDM_insertDM (m : DepMap) (k : String) (v : Dependency) (n : String) :
    lookupDM (insertDM m k v) n = if k = n then some v else lookupDM m n := by
  induction m with
  | nil => simp [insertDM, lookupDM_cons, lookupDM_nil]
  | cons p rest ih =>
    obtain ⟨a, b⟩ := p
    by_cases hk : a = k
    · subst hk
      rw [insertDM, if_pos rfl, lookupDM_cons, lookupDM_cons]
      by_cases hn : a = n <;> simp [hn]
    · rw [insertDM, if_neg hk, lookupDM_cons, ih, lookupDM_cons]
      by_cases hn : a = n <;> by_cases hkn : k = n <;> simp [hn, hkn]
      exact absurd (hn.trans hkn.symm) hk

theorem lookupDM_foldl (ds : List Dependency) (m : DepMap) (n : String) :
    lookupDM (ds.foldl (fun acc d => insertDM acc d.name d) m) n
      = (ds.reverse.find? (fun d => d.name == n)).or (lookupDM m n) := by
  induction ds generalizing m with
  | nil => simp
  | cons d ds ih =>
    rw [List.foldl_cons, ih, List.reverse_cons, List.find?_append, Option.or_assoc]
    congr 1
    rw [lookupDM_insertDM]
    by_cases h : d.name = n
    · simp [List.find?_cons, h]
    · have hb : (d.name == n) = false := by simp [h]
      simp [List.find?_cons, hb, h]

theorem lookupDM_collect (deps : List Dependency) (n : String) :
    lookupDM (collectMap deps) n = deps.reverse.find? (fun d => d.name == n) := by
  rw [collectMap, lookupDM_foldl]
  simp [lookupDM]

theorem lookupDM_collect_isSome (deps : List Dependency) (n : String) :
    (lookupDM (collectMap deps) n).isSome ↔ n ∈ depNames deps := by
  rw [lookupDM_collect, List.find?_isSome]
  simp [depNames, List.mem_reverse]

theorem mem_keysDM_insertDM (m : DepMap) (k : String) (v : Dependency) (a : String) :
    a ∈ keysDM (insertDM m k v) ↔ a ∈ keysDM m ∨ a = k := by
  induction m with
  | nil => simp [insertDM, keysDM]
  | cons p rest ih =>
    obtain ⟨k', v'⟩ := p
    by_cases h : k' = k
    · subst h
      simp [insertDM, keysDM]
      tauto
    · simp [insertDM, h, keysDM] at ih ⊢
      tauto

theorem nodup_keysDM_insertDM (m : DepMap) (k : String) (v : Dependency)
    (h : (keysDM m).Nodup) : (keysDM (insertDM m k v)).Nodup := by
  induction m with
  | nil => simp [insertDM, keysDM]
  | cons p rest ih =>
    obtain ⟨k', v'⟩ := p
    simp only [keysDM, List.map_cons, List.nodup_cons] at h
    by_cases hk : k' = k
    · subst hk
      simpa [insertDM, keysDM] using h
    · rw [insertDM, if_neg hk]
      simp only [keysDM, List.map_cons, List.nodup_cons]
      refine ⟨fun hmem => ?_, ih h.2⟩
      rcases (mem_keysDM_insertDM rest k v k').mp hmem with h1 | h1
      · exact h.1 h1
      · exact hk h1

theorem nodup_keysDM_foldl (ds : List Dependency) (m : DepMap)
    (h : (keysDM m).Nodup) :
    (keysDM (ds.foldl (fun acc d => insertDM acc d.name d) m)).Nodup := by
  induction ds generalizing m with
  | nil => exact h
  | cons d ds ih => exact ih _ (nodup_keysDM_insertDM m d.name d h)

theorem renderDepLines_head (d : Dependency) (l : String) (hl : l ∈ renderDepLines d) :
    lineHead l = some 'D' ∨ lineHead l = some ' ' ∨ lineHead l = some '\x7d' := by
  rw [renderDepLines] at hl
  rcases List.mem_cons.mp hl with rfl | hl'
  · left; rfl
  rcases List.mem_append.mp hl' with hm | hm
  · obtain ⟨x, _, rfl⟩ := List.mem_map.mp hm
    right; left; rfl
  · rw [List.mem_singleton.mp hm]
    right; right; rfl

theorem isHeaderLine_minus (l : String)
    (h : lineHead l = some 'D' ∨ lineHead l = some ' ' ∨ lineHead l = some '\x7d') :
    isHeaderLine ("-" ++ l) = false := by
  have hd : ("-" ++ l).data = '-' :: l.data := by rw [String.data_append]; rfl
  rw [isHeaderLine, hd]
  rw [lineHead] at h
  cases hld : l.data with
  | nil => rw [hld] at h; simp at h
  | cons a t =>
    rw [hld] at h
    simp only [List.head?_cons, Option.some_inj] at h
    rcases h with rfl | rfl | rfl <;> simp [List.take_succ_cons]

theorem isHeaderLine_plus (l : String)
    (h : lineHead l = some 'D' ∨ lineHead l = some ' ' ∨ lineHead l = some '\x7d') :
    isHeaderLine ("+" ++ l) = false := by
  have hd : ("+" ++ l).data = '+' :: l.data := by rw [String.data_append]; rfl
  rw [isHeaderLine, hd]
  rw [lineHead] at h
  cases hld : l.data with
  | nil => rw [hld] at h; simp at h
  | cons a t =>
    rw [hld] at h
    simp only [List.head?_cons, Option.some_inj] at h
    rcases h with rfl | rfl | rfl <;> simp [List.take_succ_cons]

theorem chunksFor_isSome (deps1 deps2 : List Dependency) (ns : List String)
    (h : ∀ n ∈ ns, (blockFor deps1 deps2 n).isSome) :
    (chunksFor deps1 deps2 ns).isSome := by
  induction ns with
  | nil => rfl
  | cons n ns ih =>
    rw [chunksFor]
    obtain ⟨b, hb⟩ := Option.isSome_iff_exists.mp (h n (List.mem_cons_self n ns))
    obtain ⟨bs, hbs⟩ :=
      Option.isSome_iff_exists.mp (ih (fun m hm => h m (List.mem_cons_of_mem n hm)))
    rw [hb, hbs]
    rfl

/-- C3: the deps output emits the per-name blocks in strictly lexicographic
order of the dependency name; the emission order is exactly the sorted union
of both name sets, a pure function of the inputs, hence identical on repeated
runs over the same inputs. -/
theorem deps_blocks_sorted (deps1 deps2 : List Dependency) :
    ((depsBlocks deps1 deps2).map Prod.fst).Sorted (· < ·)
    ∧ (depsBlocks deps1 deps2).map Prod.fst = unionSorted deps1 deps2
    ∧ ∀ n, n ∈ (depsBlocks deps1 deps2).map Prod.fst
        ↔ n ∈ depNames deps1 ∪ depNames deps2 := by
  have hmap : (depsBlocks deps1 deps2).map Prod.fst = unionSorted deps1 deps2 := by
    simp [depsBlocks, List.map_map, Function.comp_def]
  refine ⟨?_, hmap, fun n => ?_⟩
  · rw [hmap]; exact Finset.sort_sorted_lt _
  · rw [hmap, unionSorted]; exact Finset.mem_sort _

/-- C4: a name classified as added emits the v2 record rendering with every
line marked with a plus, and a name classified as removed emits the v1 record
rendering with every line marked with a minus. -/
theorem added_removed_blocks (deps1 deps2 : List Dependency) (dep : String) :
    (∀ d2, dep ∈ addedSet deps1 deps2 → lookupDM (collectMap deps2) dep = some d2 →
      blockFor deps1 deps2 dep = some ((renderDepLines d2).map (fun l => "+" ++ l)))
    ∧ (∀ d1, dep ∈ removedSet deps1 deps2 → lookupDM (collectMap deps1) dep = some d1 →
      blockFor deps1 deps2 dep = some ((renderDepLines d1).map (fun l => "-" ++ l))) := by
  constructor
  · intro d2 ha hl
    rw [blockFor, if_pos ha, hl]
    rfl
  · intro d1 hr hl
    have hna : dep ∉ addedSet deps1 deps2 := by
      simp only [addedSet, removedSet, Finset.mem_sdiff] at hr ⊢
      tauto
    rw [blockFor, if_neg hna, if_pos hr, hl]
    rfl

/-- Witness for C4 at concrete inputs: dependency c is added, a is removed. -/
theorem added_removed_blocks_witness :
    blockFor [depA] [depC] "c" = some ((renderDepLines depC).map (fun l => "+" ++ l))
    ∧ blockFor [depA] [depC] "a" = some ((renderDepLines depA).map (fun l => "-" ++ l)) :=
  ⟨(added_removed_blocks [depA] [depC] "c").1 depC (by decide) (by decide),
   (added_removed_blocks [depA] [depC] "a").2 depA (by decide) (by decide)⟩

/-- C5: a name present in both lists whose two records render to line-for-line
identical text emits no output at all. -/
theorem common_identical_silent (deps1 deps2 : List Dependency) (dep : String)
    (d1 d2 : Dependency)
    (h1 : lookupDM (collectMap deps1) dep = some d1)
    (h2 : lookupDM (collectMap deps2) dep = some d2)
    (hr : renderDepLines d1 = renderDepLines d2) :
    blockFor deps1 deps2 dep = some [] := by
  have hm1 : dep ∈ depNames deps1 := by
    rw [← lookupDM_collect_isSome, h1]; rfl
  have hm2 : dep ∈ depNames deps2 := by
    rw [← lookupDM_collect_isSome, h2]; rfl
  have hna : dep ∉ addedSet deps1 deps2 := by
    simp [addedSet, Finset.mem_sdiff, hm1]
  have hnr : dep ∉ removedSet deps1 deps2 := by
    simp [removedSet, Finset.mem_sdiff, hm2]
  rw [blockFor, if_neg hna, if_neg hnr, h1, h2]
  simp [diffUtility, hr, commonHandle]

/-- Witness for C5 at concrete inputs: the same record for b on both sides. -/
theorem common_identical_silent_witness : blockFor [depB] [depB] "b" = some [] :=
  common_identical_silent [depB] [depB] "b" depB depB (by decide) (by decide) rfl

/-- C6: a common name whose two renderings differ emits the diff output with
its first three lines stripped — exactly the diff body — and no file-header
or range-header line appears in the emitted block. -/
theorem common_diff_stripped (deps1 deps2 : List Dependency) (dep : String)
    (d1 d2 : Dependency)
    (h1 : lookupDM (collectMap deps1) dep = some d1)
    (h2 : lookupDM (collectMap deps2) dep = some d2)
    (hr : renderDepLines d1 ≠ renderDepLines d2) :
    blockFor deps1 deps2 dep
      = some ((diffUtility (renderDepLines d1) (renderDepLines d2)).stdout.drop 3)
    ∧ blockFor deps1 deps2 dep = some (diffBody (renderDepLines d1) (renderDepLines d2))
    ∧ ∀ l ∈ diffBody (renderDepLines d1) (renderDepLines d2), isHeaderLine l = false := by
  have hm1 : dep ∈ depNames deps1 := by
    rw [← lookupDM_collect_isSome, h1]; rfl
  have hm2 : dep ∈ depNames deps2 := by
    rw [← lookupDM_collect_isSome, h2]; rfl
  have hna : dep ∉ addedSet deps1 deps2 := by
    simp [addedSet, Finset.mem_sdiff, hm1]
  have hnr : dep ∉ removedSet deps1 deps2 := by
    simp [removedSet, Finset.mem_sdiff, hm2]
  have hblock : blockFor deps1 deps2 dep
      = some (commonHandle (diffUtility (renderDepLines d1) (renderDepLines d2))) := by
    rw [blockFor, if_neg hna, if_neg hnr, h1, h2]
  have hutil : diffUtility (renderDepLines d1) (renderDepLines d2)
      = ⟨1, ["--- before", "+++ after", "@@ -1 +1 @@"]
          ++ diffBody (renderDepLines d1) (renderDepLines d2)⟩ := by
    rw [diffUtility, if_neg hr]
  refine ⟨?_, ?_, fun l hl => ?_⟩
  · rw [hblock, hutil]; rfl
  · rw [hblock, hutil]; rfl
  · rcases List.mem_append.mp hl with hm | hm
    · obtain ⟨x, hx, rfl⟩ := List.mem_map.mp hm
      exact isHeaderLine_minus x (renderDepLines_head d1 x hx)
    · obtain ⟨x, hx, rfl⟩ := List.mem_map.mp hm
      exact isHeaderLine_plus x (renderDepLines_head d2 x hx)

/-- Witness for C6 at concrete inputs: the record for b changes its version
range, so its block is the header-free diff body. -/
theorem common_diff_stripped_witness :
    blockFor [depB] [depB1] "b" = some (diffBody (renderDepLines depB) (renderDepLines depB1))
    ∧ ∀ l ∈ diffBody (renderDepLines depB) (renderDepLines depB1), isHeaderLine l = false :=
  ⟨(common_diff_stripped [depB] [depB1] "b" depB depB1 (by decide) (by decide)
      (by decide)).2.1,
   (common_diff_stripped [depB] [depB1] "b" depB depB1 (by decide) (by decide)
      (by decide)).2.2⟩

/-- C7 counterexample: when the diff utility exits with the conventional
genuine-error status 2, the deps common branch still succeeds and prints the
captured output with three lines skipped — it does not fail — and the
tree-diff branch prints the captured output with no status check at all. -/
theorem diff_error_status_not_failure :
    commonDiffStep (Except.ok ⟨2, ["--- a", "+++ b", "@@ -1 +1 @@", "trouble"]⟩)
      = Except.ok ["trouble"]
    ∧ treeDiffStep (Except.ok ⟨2, ["tree output"]⟩) = Except.ok ["tree output"] :=
  ⟨rfl, rfl⟩

/-- C7 amended: the captured standard output is used regardless of exit
status, but no exit status of the utility is ever treated as an error: every
non-zero status — the differences-found status and genuine-error statuses
alike — makes the deps branch print the output with its first three lines
skipped, and the tree-diff branch prints the output unconditionally; only a
failure to run the utility at all propagates as an error. -/
theorem diff_status_handling (res : ProcResult) (e : String) :
    commonDiffStep (Except.ok res)
      = Except.ok (if res.exitCode = 0 then [] else res.stdout.drop 3)
    ∧ treeDiffStep (Except.ok res) = Except.ok res.stdout
    ∧ commonDiffStep (Except.error e) = Except.error e
    ∧ treeDiffStep (Except.error e) = Except.error e :=
  ⟨rfl, rfl, rfl, rfl⟩

/-- C8: naming a package absent from the index, or a version absent from the
index, fails with an error message naming the missing identifier, before any
output is produced. -/
theorem missing_identifier_errors (idx : IndexModel) (name v1 v2 : String)
    (k : CrateRecord) (r1 : VersionRecord) :
    (lookupCrate idx name = none →
      versionsCmd idx name = Except.error ("Couldn\x27t find crate name " ++ name)
      ∧ depsCmd idx name v1 v2 = Except.error ("Couldn\x27t find crate name " ++ name))
    ∧ (lookupCrate idx name = some k → findVersion k v1 = none →
      depsCmd idx name v1 v2
        = Except.error ("Couldn\x27t find version " ++ v1 ++ " for crate " ++ name))
    ∧ (lookupCrate idx name = some k → findVersion k v1 = some r1 → findVersion k v2 = none →
      depsCmd idx name v1 v2
        = Except.error ("Couldn\x27t find version " ++ v2 ++ " for crate " ++ name)) := by
  refine ⟨fun h => ?_, fun h h1 => ?_, fun h h1 h2 => ?_⟩
  · constructor <;> simp [versionsCmd, depsCmd, h]
  · simp [depsCmd, h, h1]
  · simp [depsCmd, h, h1, h2]

/-- Witness for C8 at a concrete one-crate index: an absent crate name and an
absent version each produce the corresponding error message. -/
theorem missing_identifier_errors_witness :
    versionsCmd idx0 "absent" = Except.error ("Couldn\x27t find crate name " ++ "absent")
    ∧ depsCmd idx0 "serde" "0.9.0" "1.0.0"
      = Except.error ("Couldn\x27t find version " ++ "0.9.0" ++ " for crate " ++ "serde")
    ∧ depsCmd idx0 "serde" "1.0.0" "2.0.0"
      = Except.error ("Couldn\x27t find version " ++ "2.0.0" ++ " for crate " ++ "serde") :=
  ⟨((missing_identifier_errors idx0 "absent" "a" "b" ⟨[]⟩ ⟨"", false, []⟩).1 (by decide)).1,
   (missing_identifier_errors idx0 "serde" "0.9.0" "1.0.0" ⟨[⟨"1.0.0", false, [depA]⟩]⟩
      ⟨"", false, []⟩).2.1 (by decide) (by decide),
   (missing_identifier_errors idx0 "serde" "1.0.0" "2.0.0" ⟨[⟨"1.0.0", false, [depA]⟩]⟩
      ⟨"1.0.0", false, [depA]⟩).2.2 (by decide) (by decide) (by decide)⟩

/-- C9: the reconciliation map keeps exactly one record per name — its key
list has no duplicate — and looking a name up returns the last record read
with that name. -/
theorem collectMap_last_wins (deps : List Dependency) (n : String) :
    lookupDM (collectMap deps) n = deps.reverse.find? (fun d => d.name == n)
    ∧ (keysDM (collectMap deps)).Nodup :=
  ⟨lookupDM_collect deps n, nodup_keysDM_foldl deps [] (by simp [keysDM])⟩

/-- C10: in the reconciliation loop, every map lookup followed by unwrap
succeeds — an added name has a record in the v2 map, a removed name in the v1
map, and a common name in both — so no iteration panics and the whole loop
produces output. -/
theorem deps_unwraps_succeed (deps1 deps2 : List Dependency) :
    (∀ dep ∈ unionSorted deps1 deps2, (blockFor deps1 deps2 dep).isSome)
    ∧ (depsOutputLines deps1 deps2).isSome := by
  have hmain : ∀ dep ∈ unionSorted deps1 deps2, (blockFor deps1 deps2 dep).isSome := by
    intro dep hdep
    have hu : dep ∈ depNames deps1 ∪ depNames deps2 := (Finset.mem_sort _).mp hdep
    rw [blockFor]
    split_ifs with ha hr
    · rw [Option.isSome_map', lookupDM_collect_isSome]
      exact (Finset.mem_sdiff.mp ha).1
    · rw [Option.isSome_map', lookupDM_collect_isSome]
      exact (Finset.mem_sdiff.mp hr).1
    · have hboth : dep ∈ depNames deps1 ∧ dep ∈ depNames deps2 := by
        simp only [addedSet, removedSet, Finset.mem_sdiff, Finset.mem_union] at ha hr hu
        tauto
      obtain ⟨d1, hd1⟩ :=
        Option.isSome_iff_exists.mp ((lookupDM_collect_isSome deps1 dep).mpr hboth.1)
      obtain ⟨d2, hd2⟩ :=
        Option.isSome_iff_exists.mp ((lookupDM_collect_isSome deps2 dep).mpr hboth.2)
      rw [hd1, hd2]
      rfl
  refine ⟨hmain, ?_⟩
  rw [depsOutputLines, Option.isSome_map']
  exact chunksFor_isSome deps1 deps2 (unionSorted deps1 deps2) hmain

/-- Witness for C10 at concrete inputs: two overlapping dependency lists. -/
theorem deps_unwraps_succeed_witness :
    (∀ dep ∈ unionSorted [depA, depB] [depB, depC],
      (blockFor [depA, depB] [depB, depC] dep).isSome)
    ∧ (depsOutputLines [depA, depB] [depB, depC]).isSome :=
  deps_unwraps_succeed [depA, depB] [depB, depC]

end CrateDiff
